import Mathlib

/-!
Verification of the ETL pipeline in `src/etl_pipeline.py` (G7 vs Africa
economic analysis).  The pipeline enumerates (country, indicator) fetch
tasks from a fixed configuration, parses API responses into observation
records, flags statistical outliers per indicator with the 1.5×IQR rule
(pandas linear-interpolated quantiles), and loads the result.

Shallow embedding conventions:
* a pandas `DataFrame` built from a list of record dicts is modelled as a
  `List Observation`; `float64` values are modelled as rationals;
* `detect_outliers_iqr` returns `Except String _` because on the empty
  record list `pd.DataFrame([])` has no columns at all, so the column
  access `df["indicator_code"]` raises `KeyError`;
* Python's `int(...)` / `float(...)` string conversions are modelled by
  explicit parameters `pi : String → Option Int` and
  `pf : String → Option Rat` (`none` = the conversion raises), plus
  concrete simple-numeral instances `pyToInt` / `pyToFloat` used for
  concrete test inputs.
-/

/-- One record of the aggregated table (a row of the pandas DataFrame built
in `fetch_data`, lines 75-83; the `is_outlier` column is added by
`detect_outliers_iqr` and defaults to `False`). -/
structure Observation where
  country : String
  country_code : String
  country_group : String
  indicator_code : String
  indicator_name : String
  year : Int
  value : Rat
  is_outlier : Bool := false
deriving Repr, DecidableEq

/-- One fetch task: lines 44-62 cross-produce every (country, group) pair
with every (indicator code, indicator name) pair. -/
structure FetchTask where
  country_code : String
  country_group : String
  indicator_code : String
  indicator_name : String
deriving Repr, DecidableEq

/-- `START_YEAR` from line 23. -/
def START_YEAR : Int := 2000

/-- `END_YEAR` from line 24. -/
def END_YEAR : Int := 2024

/-- `COUNTRY_GROUPS` from lines 26-29 (an insertion-ordered dict, modelled
as an association list). -/
def COUNTRY_GROUPS : List (String × List String) :=
  [("G7", ["USA", "GBR", "DEU", "FRA", "ITA", "CAN", "JPN"]),
   ("AFRICA_TOP5", ["NGA", "ZAF", "EGY", "DZA", "MAR"])]

/-- `INDICATORS` from lines 31-40. -/
def INDICATORS : List (String × String) :=
  [("NY.GDP.MKTP.KD.ZG", "GDP Growth Pct"),
   ("FP.CPI.TOTL.ZG", "Inflation Pct"),
   ("BX.KLT.DINV.WD.GD.ZS", "FDI Pct of GDP"),
   ("FS.AST.PRVT.GD.ZS", "Private Credit Pct of GDP"),
   ("SL.UEM.TOTL.ZS", "Unemployment Pct"),
   ("GC.DOD.TOTL.GD.ZS", "Central Gov Debt Pct of GDP"),
   ("EG.ELC.ACCS.ZS", "Access to Electricity Pct"),
   ("NE.EXP.GNFS.ZS", "Exports Pct of GDP")]

/-- Lines 44-47: `tasks` is the list of (country, group) pairs, groups in
dict order, countries in list order. -/
def countryTasks (groups : List (String × List String)) : List (String × String) :=
  groups.flatMap (fun gc => gc.2.map (fun c => (c, gc.1)))

/-- Lines 53-62: for each (country, group) task and each (code, name)
indicator, one fetch task is submitted.  Submission order is the order of
this list. -/
def enumTasks (groups : List (String × List String)) (inds : List (String × String)) :
    List FetchTask :=
  (countryTasks groups).flatMap (fun cg => inds.map (fun ii =>
    { country_code := cg.1, country_group := cg.2,
      indicator_code := ii.1, indicator_name := ii.2 }))

/-- One entry of `data[1]` in a World Bank API response (lines 73-82):
nested country info, a date string and a nullable value. -/
structure ApiEntry where
  countryValue : String
  countryId : String
  date : String
  value : Option String
deriving Repr, DecidableEq

/-- Lines 73-85: process the entries of one response in order.  A null
`value` skips the entry; otherwise `int(entry["date"])` and
`float(entry["value"])` must both succeed, in which case one observation
is appended.  A conversion failure raises, and the `except` at line 84
catches it outside the loop: the remaining entries of this response are
abandoned, while observations already appended to `all_data` are kept. -/
def processEntries (pi : String → Option Int) (pf : String → Option Rat)
    (group ic iname : String) : List ApiEntry → List Observation
  | [] => []
  | e :: rest =>
    match e.value with
    | none => processEntries pi pf group ic iname rest
    | some s =>
      match pi e.date, pf s with
      | some y, some v =>
        { country := e.countryValue, country_code := e.countryId,
          country_group := group, indicator_code := ic, indicator_name := iname,
          year := y, value := v } :: processEntries pi pf group ic iname rest
      | some _, none => []
      | none, _ => []

/-- Lines 64-87: the main thread walks the futures in submission order and
appends each task's parsed observations to the shared `all_data` list.  A
task whose request failed, whose body was malformed, or whose body had
fewer than two top-level elements (line 70) contributes nothing; it is
modelled as a `none` response. -/
def collectResults (pi : String → Option Int) (pf : String → Option Rat)
    (results : List (FetchTask × Option (List ApiEntry))) : List Observation :=
  results.flatMap (fun tr =>
    match tr.2 with
    | none => []
    | some es => processEntries pi pf tr.1.country_group tr.1.indicator_code
        tr.1.indicator_name es)

/-- `fetch_data` (lines 42-87): enumerate all tasks from the configured
constants, obtain each task's response from the network (modelled by the
oracle `api`) and aggregate the parsed observations in submission order. -/
def fetch_data (pi : String → Option Int) (pf : String → Option Rat)
    (api : FetchTask → Option (List ApiEntry)) : List Observation :=
  collectResults pi pf ((enumTasks COUNTRY_GROUPS INDICATORS).map (fun t => (t, api t)))

/-- `Series.quantile(q)` with the pandas default linear interpolation:
sort the values, take position `h = q·(n−1)` and interpolate linearly
between the order statistics below and above `h`.  (pandas returns NaN on
an empty series; the detector only calls this on nonempty value lists, so
the `0` default is never reached there.) -/
def quantile (xs : List Rat) (q : Rat) : Rat :=
  let s := List.insertionSort (fun a b => a ≤ b) xs
  let n := s.length
  if n = 0 then 0
  else
    let h : Rat := q * ((n : Rat) - 1)
    let i : Nat := (Int.toNat ⌊h⌋)
    let lo := s.getD i 0
    let hi := s.getD (min (i + 1) (n - 1)) 0
    lo + (h - (⌊h⌋ : Rat)) * (hi - lo)

/-- Line 96: the value column restricted to one indicator's rows, in row
order. -/
def indicatorValues (df : List Observation) (ind : String) : List Rat :=
  (df.filter (fun r => r.indicator_code = ind)).map (fun r => r.value)

/-- Line 102: `lower = Q1 - 1.5 * IQR` for one indicator's values. -/
def lowerBound (df : List Observation) (ind : String) : Rat :=
  let q1 := quantile (indicatorValues df ind) (1/4)
  let q3 := quantile (indicatorValues df ind) (3/4)
  q1 - 3/2 * (q3 - q1)

/-- Line 103: `upper = Q3 + 1.5 * IQR` for one indicator's values. -/
def upperBound (df : List Observation) (ind : String) : Rat :=
  let q1 := quantile (indicatorValues df ind) (1/4)
  let q3 := quantile (indicatorValues df ind) (3/4)
  q3 + 3/2 * (q3 - q1)

/-- Lines 95-106, one iteration of the indicator loop: rows of this
indicator whose value is strictly outside the bounds get
`is_outlier = True`; every other row is left unchanged.  (Line 105 builds
the strict-comparison mask over the whole frame, line 106 intersects it
with this indicator's row mask before assigning.) -/
def flagIndicator (df : List Observation) (ind : String) : List Observation :=
  df.map (fun r =>
    if r.indicator_code = ind ∧ (r.value < lowerBound df ind ∨ r.value > upperBound df ind)
    then { r with is_outlier := true } else r)

/-- `pd.unique` order: first occurrences, in order of appearance. -/
def pdUnique (l : List String) : List String :=
  l.foldl (fun acc a => if a ∈ acc then acc else acc ++ [a]) []

/-- `detect_outliers_iqr` (lines 89-108).  On a frame with at least one
row, line 92 initialises `is_outlier` to `False` everywhere and the loop
at line 94 processes each distinct indicator code once.  On the empty
frame produced by `pd.DataFrame([])` the frame has no columns, so
`df["indicator_code"]` at line 94 raises `KeyError`, modelled as the
`Except.error` branch. -/
def detect_outliers_iqr (df : List Observation) : Except String (List Observation) :=
  if df.isEmpty then
    Except.error "KeyError: indicator_code"
  else
    let df0 := df.map (fun r => { r with is_outlier := false })
    Except.ok ((pdUnique (df0.map (fun r => r.indicator_code))).foldl flagIndicator df0)

def rowFlag (df : List Observation) (r : Observation) : Observation :=
  { r with is_outlier :=
      decide (r.value < lowerBound df r.indicator_code ∨
              r.value > upperBound df r.indicator_code) }

/-- Modelled from Python's built-in `int(str)` conversion as used on
`entry["date"]`, restricted to simple all-digit numerals: an all-digit
string converts to the corresponding integer, anything else raises
(modelled as `none`).  Used only to instantiate concrete examples; the
response-processing theorems are parametric in the parser. -/
def pyToInt (s : String) : Option Int :=
  if s.length ≠ 0 ∧ s.data.all Char.isDigit then
    some (s.data.foldl (fun n c => 10 * n + ((c.toNat : Int) - 48)) 0)
  else none

/-- Modelled from Python's built-in `float(str)` conversion as used on
`entry["value"]`, restricted to the same all-digit numerals. -/
def pyToFloat (s : String) : Option Rat :=
  (pyToInt s).map (fun n => (n : Rat))

/-- An entry the loop body of lines 73-83 handles without raising: either
its `value` is null (skipped) or both conversions succeed. -/
def entryOk (pi : String → Option Int) (pf : String → Option Rat) (e : ApiEntry) : Prop :=
  e.value = none ∨ ∃ s y v, e.value = some s ∧ pi e.date = some y ∧ pf s = some v

def okEntry1 : ApiEntry :=
  { countryValue := "United States", countryId := "USA", date := "2020", value := some "3" }

def badDateEntry : ApiEntry :=
  { countryValue := "United States", countryId := "USA", date := "20x1", value := some "4" }

def okEntry2 : ApiEntry :=
  { countryValue := "United States", countryId := "USA", date := "2022", value := some "5" }

def sampleTask : FetchTask :=
  { country_code := "USA", country_group := "G7",
    indicator_code := "NY.GDP.MKTP.KD.ZG", indicator_name := "GDP Growth Pct" }

def gdpRow (y : Int) (v : Rat) : Observation :=
  { country := "United States", country_code := "USA", country_group := "G7",
    indicator_code := "NY.GDP.MKTP.KD.ZG", indicator_name := "GDP Growth Pct",
    year := y, value := v }

/-- The ten-observation example frame of the spec: one indicator with the
value subsequence [10, 12, 12, 13, 12, 11, 14, 13, 15, 102]. -/
def exampleDf : List Observation :=
  [gdpRow 2000 10, gdpRow 2001 12, gdpRow 2002 12, gdpRow 2003 13, gdpRow 2004 12,
   gdpRow 2005 11, gdpRow 2006 14, gdpRow 2007 13, gdpRow 2008 15, gdpRow 2009 102]

/-- The year-range trust condition of the spec: if the entry's date parses
at all, the year is within the requested [START_YEAR, END_YEAR] window. -/
def yearWithinRange : Option Int → Prop
  | none => True
  | some y => START_YEAR ≤ y ∧ y ≤ END_YEAR

instance instDecidableYearWithinRange : (x : Option Int) → Decidable (yearWithinRange x)
  | none => isTrue trivial
  | some y => inferInstanceAs (Decidable (START_YEAR ≤ y ∧ y ≤ END_YEAR))

def sampleApi : FetchTask → Option (List ApiEntry) :=
  fun t =>
    if t.country_code = "USA" ∧ t.indicator_code = "NY.GDP.MKTP.KD.ZG"
    then some [okEntry1] else none

def singletonDf : List Observation := [gdpRow 2000 10]

def inflRow : Observation :=
  { country := "United States", country_code := "USA", country_group := "G7",
    indicator_code := "FP.CPI.TOTL.ZG", indicator_name := "Inflation Pct",
    year := 2000, value := 5 }

theorem mem_pdUnique_foldl (l acc : List String) (a : String) :
    a ∈ l.foldl (fun acc b => if b ∈ acc then acc else acc ++ [b]) acc ↔
      a ∈ acc ∨ a ∈ l := by
  induction l generalizing acc with
  | nil => simp
  | cons b t ih =>
    rw [List.foldl_cons, ih]
    by_cases hb : b ∈ acc
    · simp only [if_pos hb, List.mem_cons]
      constructor
      · rintro (h | h) <;> tauto
      · rintro (h | rfl | h) <;> tauto
    · simp only [if_neg hb, List.mem_append, List.mem_singleton, List.mem_cons]
      tauto

theorem mem_pdUnique (l : List String) (a : String) : a ∈ pdUnique l ↔ a ∈ l := by
  simp [pdUnique, mem_pdUnique_foldl]

theorem indicatorValues_map (df : List Observation) (g : Observation → Observation)
    (hc : ∀ r, (g r).indicator_code = r.indicator_code)
    (hv : ∀ r, (g r).value = r.value) (ind : String) :
    indicatorValues (df.map g) ind = indicatorValues df ind := by
  induction df with
  | nil => rfl
  | cons r t ih =>
    simp only [indicatorValues, List.map_cons, List.filter_cons, hc] at ih ⊢
    by_cases h : r.indicator_code = ind
    · simp [h, hv, ih]
    · simp [h, ih]

theorem lowerBound_map (df : List Observation) (g : Observation → Observation)
    (hc : ∀ r, (g r).indicator_code = r.indicator_code)
    (hv : ∀ r, (g r).value = r.value) (ind : String) :
    lowerBound (df.map g) ind = lowerBound df ind := by
  unfold lowerBound
  rw [indicatorValues_map df g hc hv]

theorem upperBound_map (df : List Observation) (g : Observation → Observation)
    (hc : ∀ r, (g r).indicator_code = r.indicator_code)
    (hv : ∀ r, (g r).value = r.value) (ind : String) :
    upperBound (df.map g) ind = upperBound df ind := by
  unfold upperBound
  rw [indicatorValues_map df g hc hv]

theorem flagIndicator_code (df : List Observation) (ind : String) (r : Observation) :
    (if r.indicator_code = ind ∧ (r.value < lowerBound df ind ∨ r.value > upperBound df ind)
     then { r with is_outlier := true } else r).indicator_code = r.indicator_code := by
  split <;> rfl

theorem flagIndicator_value (df : List Observation) (ind : String) (r : Observation) :
    (if r.indicator_code = ind ∧ (r.value < lowerBound df ind ∨ r.value > upperBound df ind)
     then { r with is_outlier := true } else r).value = r.value := by
  split <;> rfl

theorem foldl_flagIndicator (inds : List String) (df : List Observation) :
    inds.foldl flagIndicator df =
      df.map (fun r =>
        if r.indicator_code ∈ inds ∧
            (r.value < lowerBound df r.indicator_code ∨
             r.value > upperBound df r.indicator_code)
        then { r with is_outlier := true } else r) := by
  induction inds generalizing df with
  | nil => simp
  | cons a t ih =>
    rw [List.foldl_cons, ih (flagIndicator df a)]
    have hlb : ∀ ind, lowerBound (flagIndicator df a) ind = lowerBound df ind :=
      fun ind => lowerBound_map df _ (flagIndicator_code df a) (flagIndicator_value df a) ind
    have hub : ∀ ind, upperBound (flagIndicator df a) ind = upperBound df ind :=
      fun ind => upperBound_map df _ (flagIndicator_code df a) (flagIndicator_value df a) ind
    unfold flagIndicator
    rw [List.map_map]
    refine List.map_congr_left (fun r _ => ?_)
    simp only [Function.comp_apply]
    unfold flagIndicator at hlb hub
    simp only [hlb, hub]
    by_cases hP : r.indicator_code = a ∧
        (r.value < lowerBound df a ∨ r.value > upperBound df a)
    · rw [if_pos hP]
      rw [if_pos (show r.indicator_code ∈ a :: t ∧ _ from
        ⟨by rw [hP.1]; exact List.mem_cons_self a t,
         by rw [hP.1]; exact hP.2⟩)]
      split <;> rfl
    · rw [if_neg hP]
      by_cases hC : r.value < lowerBound df r.indicator_code ∨
          r.value > upperBound df r.indicator_code
      · by_cases ha : r.indicator_code = a
        · exact absurd ⟨ha, ha ▸ hC⟩ hP
        · simp [List.mem_cons, ha]
      · rw [if_neg (fun h => hC h.2), if_neg (fun h => hC h.2)]

theorem detect_eq (df : List Observation) (h : df ≠ []) :
    detect_outliers_iqr df = Except.ok (df.map (rowFlag df)) := by
  unfold detect_outliers_iqr
  rw [if_neg (by simpa using h)]
  have hc : ∀ r : Observation, (({ r with is_outlier := false } : Observation)).indicator_code
      = r.indicator_code := fun r => rfl
  have hv : ∀ r : Observation, (({ r with is_outlier := false } : Observation)).value
      = r.value := fun r => rfl
  simp only [foldl_flagIndicator]
  have hlb : ∀ ind, lowerBound (df.map (fun r => { r with is_outlier := false })) ind
      = lowerBound df ind := fun ind => lowerBound_map df _ hc hv ind
  have hub : ∀ ind, upperBound (df.map (fun r => { r with is_outlier := false })) ind
      = upperBound df ind := fun ind => upperBound_map df _ hc hv ind
  simp only [hlb, hub, List.map_map]
  congr 1
  refine List.map_congr_left (fun r hr => ?_)
  simp only [Function.comp_apply]
  have hmem : r.indicator_code ∈
      pdUnique (df.map ((fun r => r.indicator_code) ∘
        (fun r => { r with is_outlier := false }))) := by
    rw [mem_pdUnique]
    exact List.mem_map.2 ⟨r, hr, rfl⟩
  by_cases hC : r.value < lowerBound df r.indicator_code ∨
      r.value > upperBound df r.indicator_code
  · rw [if_pos ⟨hmem, hC⟩]
    unfold rowFlag
    rw [decide_eq_true hC]
  · rw [if_neg (fun h => hC h.2)]
    unfold rowFlag
    rw [decide_eq_false hC]

theorem detect_ok_inv (df out : List Observation)
    (h : detect_outliers_iqr df = Except.ok out) :
    df ≠ [] ∧ out = df.map (rowFlag df) := by
  have hne : df ≠ [] := by
    intro hnil
    subst hnil
    simp [detect_outliers_iqr] at h
  refine ⟨hne, ?_⟩
  rw [detect_eq df hne] at h
  exact (Except.ok.inj h).symm

theorem quantile_singleton (v q : Rat) : quantile [v] q = v := by
  simp [quantile, List.insertionSort, List.orderedInsert]

theorem lowerBound_singleton (df : List Observation) (ind : String) (v : Rat)
    (h : indicatorValues df ind = [v]) : lowerBound df ind = v := by
  unfold lowerBound
  rw [h, quantile_singleton, quantile_singleton]
  ring

theorem upperBound_singleton (df : List Observation) (ind : String) (v : Rat)
    (h : indicatorValues df ind = [v]) : upperBound df ind = v := by
  unfold upperBound
  rw [h, quantile_singleton, quantile_singleton]
  ring

theorem value_mem_indicatorValues (df : List Observation) (r : Observation) (hr : r ∈ df) :
    r.value ∈ indicatorValues df r.indicator_code := by
  unfold indicatorValues
  exact List.mem_map.2 ⟨r, List.mem_filter.2 ⟨hr, by simp⟩, rfl⟩

/-- Claim C5: a record is flagged iff its value is strictly outside the
IQR bounds of its indicator's value subsequence; with a single-record
indicator the bounds collapse onto the value and it is never flagged. -/
theorem claim_C5_strict_bounds (df out : List Observation)
    (h : detect_outliers_iqr df = Except.ok out) :
    (∀ i (hi : i < df.length) (ho : i < out.length),
       (out[i].is_outlier = true ↔
         (df[i].value < lowerBound df (df[i].indicator_code) ∨
          df[i].value > upperBound df (df[i].indicator_code)))) ∧
    (∀ i (hi : i < df.length) (ho : i < out.length) (v : Rat),
       indicatorValues df (df[i].indicator_code) = [v] →
       out[i].is_outlier = false) := by
  obtain ⟨hne, rfl⟩ := detect_ok_inv df out h
  constructor
  · intro i hi ho
    rw [List.getElem_map]
    unfold rowFlag
    simp only [decide_eq_true_eq]
  · intro i hi ho v hv
    rw [List.getElem_map]
    unfold rowFlag
    simp only []
    have hmem : df[i].value ∈ indicatorValues df (df[i].indicator_code) :=
      value_mem_indicatorValues df df[i] (List.getElem_mem hi)
    rw [hv, List.mem_singleton] at hmem
    rw [lowerBound_singleton df _ v hv, upperBound_singleton df _ v hv, hmem]
    simp

/-- Claim C6: the detector is idempotent on any successfully processed
frame. -/
theorem claim_C6_idempotent (df out : List Observation)
    (h : detect_outliers_iqr df = Except.ok out) :
    detect_outliers_iqr out = Except.ok out := by
  obtain ⟨hne, rfl⟩ := detect_ok_inv df out h
  have hne2 : df.map (rowFlag df) ≠ [] := by simpa using hne
  rw [detect_eq _ hne2]
  have hc : ∀ r : Observation, (rowFlag df r).indicator_code = r.indicator_code :=
    fun _ => rfl
  have hv : ∀ r : Observation, (rowFlag df r).value = r.value := fun _ => rfl
  have hlb := lowerBound_map df (rowFlag df) hc hv
  have hub := upperBound_map df (rowFlag df) hc hv
  congr 1
  rw [List.map_map]
  refine List.map_congr_left (fun r hr => ?_)
  simp only [Function.comp_apply]
  have hstep : rowFlag (df.map (rowFlag df)) (rowFlag df r) = { rowFlag df r with is_outlier := decide ((rowFlag df r).value < lowerBound (df.map (rowFlag df)) ((rowFlag df r).indicator_code) ∨ (rowFlag df r).value > upperBound (df.map (rowFlag df)) ((rowFlag df r).indicator_code)) } := rfl
  rw [hstep, hlb, hub]
  rfl

/-- Claim C8: the detector is an enrichment, not a filter: the output has
the same records in the same order with only `is_outlier` touched. -/
theorem claim_C8_frame (df out : List Observation)
    (h : detect_outliers_iqr df = Except.ok out) :
    out.length = df.length ∧
    out.map (fun r => { r with is_outlier := false }) =
      df.map (fun r => { r with is_outlier := false }) := by
  obtain ⟨hne, rfl⟩ := detect_ok_inv df out h
  refine ⟨by simp, ?_⟩
  rw [List.map_map]
  exact List.map_congr_left (fun r _ => rfl)

/-- Claim C7: the flags of indicator A's rows depend only on A's own
filtered subsequence. -/
theorem claim_C7_partition_independence (df1 df2 out1 out2 : List Observation) (A : String)
    (h1 : detect_outliers_iqr df1 = Except.ok out1)
    (h2 : detect_outliers_iqr df2 = Except.ok out2)
    (hsame : df1.filter (fun r => r.indicator_code = A) =
             df2.filter (fun r => r.indicator_code = A)) :
    out1.filter (fun r => r.indicator_code = A) =
      out2.filter (fun r => r.indicator_code = A) := by
  obtain ⟨hne1, rfl⟩ := detect_ok_inv df1 out1 h1
  obtain ⟨hne2, rfl⟩ := detect_ok_inv df2 out2 h2
  have hIV : indicatorValues df1 A = indicatorValues df2 A := by
    unfold indicatorValues
    rw [hsame]
  have hbounds : ∀ r : Observation, r.indicator_code = A → rowFlag df1 r = rowFlag df2 r := by
    intro r hrA
    unfold rowFlag lowerBound upperBound
    rw [hrA, hIV]
  have hfil1 : (df1.map (rowFlag df1)).filter (fun r => r.indicator_code = A) =
      (df1.filter (fun r => r.indicator_code = A)).map (rowFlag df1) :=
    List.filter_map (rowFlag df1) df1
  have hfil2 : (df2.map (rowFlag df2)).filter (fun r => r.indicator_code = A) =
      (df2.filter (fun r => r.indicator_code = A)).map (rowFlag df2) :=
    List.filter_map (rowFlag df2) df2
  rw [hfil1, hfil2, hsame]
  refine List.map_congr_left (fun r hr => ?_)
  have hrA := List.of_mem_filter hr
  exact hbounds r (by simpa using hrA)

theorem processEntries_append (pi : String → Option Int) (pf : String → Option Rat)
    (g ic iname : String) (pre rest : List ApiEntry)
    (hpre : ∀ e ∈ pre, entryOk pi pf e) :
    processEntries pi pf g ic iname (pre ++ rest) =
      processEntries pi pf g ic iname pre ++ processEntries pi pf g ic iname rest := by
  induction pre with
  | nil => simp [processEntries]
  | cons e t ih =>
    have htail : ∀ e' ∈ t, entryOk pi pf e' :=
      fun e' he' => hpre e' (List.mem_cons_of_mem e he')
    rcases hpre e (List.mem_cons_self e t) with hnone | ⟨s, y, v, hs, hy, hv⟩
    · simp only [List.cons_append, processEntries, hnone]
      exact ih htail
    · simp only [List.cons_append, processEntries, hs, hy, hv, List.append_eq]
      rw [ih htail]

theorem processEntries_failing_entry (pi : String → Option Int) (pf : String → Option Rat)
    (g ic iname : String) (bad : ApiEntry) (post : List ApiEntry) (s : String)
    (hs : bad.value = some s) (hbad : pi bad.date = none ∨ pf s = none) :
    processEntries pi pf g ic iname (bad :: post) = [] := by
  rcases hbad with h | h
  · simp [processEntries, hs, h]
  · cases hy : pi bad.date <;> simp [processEntries, hs, h, hy]

/-- Claim C1 (amended): a parse failure drops the failing entry and all
later entries of the same response (not crashing the run); the entries
before it are still processed. -/
theorem claim_C1_parse_error_drops_rest (pi : String → Option Int)
    (pf : String → Option Rat) (g ic iname : String) (pre post : List ApiEntry)
    (bad : ApiEntry) (s : String) (hpre : ∀ e ∈ pre, entryOk pi pf e)
    (hs : bad.value = some s) (hbad : pi bad.date = none ∨ pf s = none) :
    processEntries pi pf g ic iname (pre ++ bad :: post) =
      processEntries pi pf g ic iname pre := by
  rw [processEntries_append pi pf g ic iname pre (bad :: post) hpre,
      processEntries_failing_entry pi pf g ic iname bad post s hs hbad,
      List.append_nil]

/-- Claim C1 counterexample: in a response whose second entry has an
unparsable date, the third entry is parsable yet contributes no
observation — only the first entry's observation survives, refuting
"every other entry of the same response is still processed". -/
theorem claim_C1_counterexample :
    entryOk pyToInt pyToFloat okEntry2 ∧
    processEntries pyToInt pyToFloat "G7" "NY.GDP.MKTP.KD.ZG" "GDP Growth Pct"
        [okEntry1, badDateEntry, okEntry2] =
      [{ country := "United States", country_code := "USA", country_group := "G7",
         indicator_code := "NY.GDP.MKTP.KD.ZG", indicator_name := "GDP Growth Pct",
         year := 2020, value := 3 }] := by
  constructor
  · exact Or.inr ⟨"5", 2022, 5, rfl, by decide, by decide⟩
  · decide

/-- Witness for the amended C1 theorem at a concrete response. -/
theorem claim_C1_witness :
    (∀ e ∈ [okEntry1], entryOk pyToInt pyToFloat e) ∧
    badDateEntry.value = some "4" ∧
    (pyToInt badDateEntry.date = none ∨ pyToFloat "4" = none) ∧
    processEntries pyToInt pyToFloat "G7" "NY.GDP.MKTP.KD.ZG" "GDP Growth Pct"
        ([okEntry1] ++ badDateEntry :: [okEntry2]) =
      processEntries pyToInt pyToFloat "G7" "NY.GDP.MKTP.KD.ZG" "GDP Growth Pct"
        [okEntry1] := by
  have hpre : ∀ e ∈ [okEntry1], entryOk pyToInt pyToFloat e := by
    intro e he
    rw [List.mem_singleton] at he
    subst he
    exact Or.inr ⟨"3", 2020, 3, rfl, by decide, by decide⟩
  exact ⟨hpre, rfl, Or.inl (by decide),
    claim_C1_parse_error_drops_rest pyToInt pyToFloat "G7" "NY.GDP.MKTP.KD.ZG"
      "GDP Growth Pct" [okEntry1] [okEntry2] badDateEntry "4" hpre rfl (Or.inl (by decide))⟩

/-- Claim C10: in the aggregated run output, a mid-response parse failure
keeps the observations of the entries before the failing entry and every
other task's output; the failing entry and its successors contribute
nothing. -/
theorem claim_C10_prefix_retained (pi : String → Option Int) (pf : String → Option Rat)
    (before after : List (FetchTask × Option (List ApiEntry))) (t : FetchTask)
    (pre post : List ApiEntry) (bad : ApiEntry) (s : String)
    (hpre : ∀ e ∈ pre, entryOk pi pf e) (hs : bad.value = some s)
    (hbad : pi bad.date = none ∨ pf s = none) :
    collectResults pi pf (before ++ (t, some (pre ++ bad :: post)) :: after) =
      collectResults pi pf before ++
      processEntries pi pf t.country_group t.indicator_code t.indicator_name pre ++
      collectResults pi pf after := by
  unfold collectResults
  rw [List.flatMap_append, List.flatMap_cons]
  have hmid : (match (t, some (pre ++ bad :: post)).2 with
      | none => ([] : List Observation)
      | some es => processEntries pi pf t.country_group t.indicator_code
          t.indicator_name es) =
      processEntries pi pf t.country_group t.indicator_code t.indicator_name pre := by
    show processEntries pi pf t.country_group t.indicator_code t.indicator_name
        (pre ++ bad :: post) = _
    rw [processEntries_append pi pf t.country_group t.indicator_code t.indicator_name
        pre (bad :: post) hpre,
      processEntries_failing_entry pi pf t.country_group t.indicator_code
        t.indicator_name bad post s hs hbad,
      List.append_nil]
  rw [hmid, List.append_assoc]

/-- Witness for the C10 theorem at a concrete run state. -/
theorem claim_C10_witness :
    (∀ e ∈ [okEntry1], entryOk pyToInt pyToFloat e) ∧
    badDateEntry.value = some "4" ∧
    (pyToInt badDateEntry.date = none ∨ pyToFloat "4" = none) ∧
    collectResults pyToInt pyToFloat
        ([(sampleTask, none)] ++ (sampleTask, some ([okEntry1] ++ badDateEntry :: [okEntry2])) :: []) =
      collectResults pyToInt pyToFloat [(sampleTask, none)] ++
      processEntries pyToInt pyToFloat sampleTask.country_group sampleTask.indicator_code
        sampleTask.indicator_name [okEntry1] ++
      collectResults pyToInt pyToFloat [] := by
  have hpre : ∀ e ∈ [okEntry1], entryOk pyToInt pyToFloat e := by
    intro e he
    rw [List.mem_singleton] at he
    subst he
    exact Or.inr ⟨"3", 2020, 3, rfl, by decide, by decide⟩
  exact ⟨hpre, rfl, Or.inl (by decide),
    claim_C10_prefix_retained pyToInt pyToFloat [(sampleTask, none)] [] sampleTask
      [okEntry1] [okEntry2] badDateEntry "4" hpre rfl (Or.inl (by decide))⟩

/-- Claim C2 (code bug witness): when every task fails the aggregate is
the empty record list, and the detector on the empty frame raises
`KeyError` (the empty DataFrame has no `indicator_code` column) instead of
acting as a no-op. -/
theorem claim_C2_empty_run :
    fetch_data pyToInt pyToFloat (fun _ => none) = [] ∧
    detect_outliers_iqr [] = Except.error "KeyError: indicator_code" := by
  constructor
  · unfold fetch_data collectResults
    rw [List.flatMap_eq_nil_iff]
    intro tr htr
    rw [List.mem_map] at htr
    obtain ⟨t, _, rfl⟩ := htr
    rfl
  · rfl

/-- Claim C3: on the spec's example subsequence the detector flags exactly
the record with value 102 (Q1 = 12, Q3 = 13.75, bounds 9.375 and 16.375)
and no other record. -/
theorem claim_C3_example_flags_only_102 :
    detect_outliers_iqr exampleDf =
      Except.ok
        [gdpRow 2000 10, gdpRow 2001 12, gdpRow 2002 12, gdpRow 2003 13, gdpRow 2004 12,
         gdpRow 2005 11, gdpRow 2006 14, gdpRow 2007 13, gdpRow 2008 15,
         { gdpRow 2009 102 with is_outlier := true }] := by
  norm_num [detect_outliers_iqr, exampleDf, gdpRow, pdUnique, flagIndicator, lowerBound,
    upperBound, indicatorValues, quantile, List.insertionSort, List.orderedInsert]
  norm_num [Int.toNat]

/-- Claim C4: for a duplicate-free configuration the enumerator yields
exactly (total countries) × (indicators) tasks and each
(country, group, indicator) combination occurs exactly once. -/
theorem claim_C4_task_product (groups : List (String × List String))
    (inds : List (String × String))
    (hg : (countryTasks groups).Nodup) (hi : inds.Nodup) :
    (enumTasks groups inds).length = (countryTasks groups).length * inds.length ∧
    ∀ cg ∈ countryTasks groups, ∀ ii ∈ inds,
      (enumTasks groups inds).count
        { country_code := cg.1, country_group := cg.2,
          indicator_code := ii.1, indicator_name := ii.2 } = 1 := by
  constructor
  · unfold enumTasks
    rw [List.length_flatMap]
    have hconst : (countryTasks groups).map (List.length ∘ fun cg =>
        inds.map (fun ii =>
          ({ country_code := cg.1, country_group := cg.2,
             indicator_code := ii.1, indicator_name := ii.2 } : FetchTask))) =
        (countryTasks groups).map (Function.const (String × String) inds.length) :=
      List.map_congr_left (fun cg _ => by simp [Function.const])
    rw [hconst, List.map_const, List.sum_replicate, smul_eq_mul]
  · intro cg hcg ii hii
    apply List.count_eq_one_of_mem
    · unfold enumTasks
      rw [List.nodup_flatMap]
      constructor
      · intro cg' _
        refine List.Nodup.map ?_ hi
        intro a b hab
        rw [FetchTask.mk.injEq] at hab
        exact Prod.ext hab.2.2.1 hab.2.2.2
      · refine hg.imp ?_
        intro a b hne
        simp only [Function.onFun, List.Disjoint]
        intro x hxa hxb
        rw [List.mem_map] at hxa hxb
        obtain ⟨ia, _, rfl⟩ := hxa
        obtain ⟨ib, _, hx⟩ := hxb
        rw [FetchTask.mk.injEq] at hx
        exact hne (Prod.ext hx.1.symm hx.2.1.symm)
    · unfold enumTasks
      rw [List.mem_flatMap]
      exact ⟨cg, hcg, List.mem_map.2 ⟨ii, hii, rfl⟩⟩

/-- Witness for C4 at the repository's actual configuration: 12 countries
by 8 indicators gives 96 tasks and e.g. the (USA, G7, GDP-growth) task
occurs exactly once. -/
theorem claim_C4_witness :
    (countryTasks COUNTRY_GROUPS).Nodup ∧ INDICATORS.Nodup ∧
    ((enumTasks COUNTRY_GROUPS INDICATORS).length =
        (countryTasks COUNTRY_GROUPS).length * INDICATORS.length ∧
      ∀ cg ∈ countryTasks COUNTRY_GROUPS, ∀ ii ∈ INDICATORS,
        (enumTasks COUNTRY_GROUPS INDICATORS).count
          { country_code := cg.1, country_group := cg.2,
            indicator_code := ii.1, indicator_name := ii.2 } = 1) ∧
    (enumTasks COUNTRY_GROUPS INDICATORS).length = 96 :=
  ⟨by decide, by decide,
   claim_C4_task_product COUNTRY_GROUPS INDICATORS (by decide) (by decide),
   by decide⟩

theorem mem_processEntries (pi : String → Option Int) (pf : String → Option Rat)
    (g ic iname : String) (es : List ApiEntry) (o : Observation)
    (ho : o ∈ processEntries pi pf g ic iname es) :
    o.country_group = g ∧ o.indicator_code = ic ∧ o.indicator_name = iname ∧
    ∃ e ∈ es, ∃ s, e.value = some s ∧ pi e.date = some o.year ∧
      e.countryId = o.country_code := by
  induction es with
  | nil => simp [processEntries] at ho
  | cons e t ih =>
    cases hv : e.value with
    | none =>
      simp only [processEntries, hv] at ho
      obtain ⟨h1, h2, h3, e', he', rest⟩ := ih ho
      exact ⟨h1, h2, h3, e', List.mem_cons_of_mem e he', rest⟩
    | some s =>
      cases hy : pi e.date with
      | none => simp [processEntries, hv, hy] at ho
      | some y =>
        cases hvv : pf s with
        | none => simp [processEntries, hv, hy, hvv] at ho
        | some v =>
          simp only [processEntries, hv, hy, hvv] at ho
          rw [List.mem_cons] at ho
          rcases ho with rfl | ho
          · exact ⟨rfl, rfl, rfl, e, List.mem_cons_self e t, s, hv, hy, rfl⟩
          · obtain ⟨h1, h2, h3, e', he', rest⟩ := ih ho
            exact ⟨h1, h2, h3, e', List.mem_cons_of_mem e he', rest⟩

theorem mem_countryTasks (groups : List (String × List String)) (c g : String)
    (h : (c, g) ∈ countryTasks groups) : ∃ cs, (g, cs) ∈ groups ∧ c ∈ cs := by
  unfold countryTasks at h
  rw [List.mem_flatMap] at h
  obtain ⟨gc, hgc, hmem⟩ := h
  rw [List.mem_map] at hmem
  obtain ⟨c', hc', heq⟩ := hmem
  rw [Prod.mk.injEq] at heq
  refine ⟨gc.2, ?_, heq.1 ▸ hc'⟩
  rw [← heq.2]
  simpa using hgc

theorem mem_enumTasks (groups : List (String × List String))
    (inds : List (String × String)) (t : FetchTask) (ht : t ∈ enumTasks groups inds) :
    (t.country_code, t.country_group) ∈ countryTasks groups ∧
    (t.indicator_code, t.indicator_name) ∈ inds := by
  unfold enumTasks at ht
  rw [List.mem_flatMap] at ht
  obtain ⟨cg, hcg, hmem⟩ := ht
  rw [List.mem_map] at hmem
  obtain ⟨ii, hii, rfl⟩ := hmem
  constructor
  · simpa using hcg
  · simpa using hii

/-- Claim C9: provided the API respects the request (echoes the requested
country and keeps parseable dates within the requested window — the trust
assumption stated by the spec), every observation carries a configured
indicator code, a country code from some configured group, and a year in
[START_YEAR, END_YEAR]. -/
theorem claim_C9_invariants (pi : String → Option Int) (pf : String → Option Rat)
    (api : FetchTask → Option (List ApiEntry))
    (hresp : ∀ t ∈ enumTasks COUNTRY_GROUPS INDICATORS, ∀ e ∈ (api t).getD [],
      e.countryId = t.country_code ∧ yearWithinRange (pi e.date)) :
    ∀ o ∈ fetch_data pi pf api,
      o.indicator_code ∈ INDICATORS.map Prod.fst ∧
      (∃ g cs, (g, cs) ∈ COUNTRY_GROUPS ∧ o.country_code ∈ cs) ∧
      (START_YEAR ≤ o.year ∧ o.year ≤ END_YEAR) := by
  intro o ho
  unfold fetch_data collectResults at ho
  rw [List.mem_flatMap] at ho
  obtain ⟨tr, htr, hmem⟩ := ho
  rw [List.mem_map] at htr
  obtain ⟨t, ht, rfl⟩ := htr
  cases hapi : api t with
  | none => simp [hapi] at hmem
  | some es =>
    simp only [hapi] at hmem
    obtain ⟨hg, hic, hin, e, he, s, hvs, hyear, hcid⟩ :=
      mem_processEntries pi pf t.country_group t.indicator_code t.indicator_name es o hmem
    have hte := mem_enumTasks COUNTRY_GROUPS INDICATORS t ht
    have hresp1 := hresp t ht e (by rw [hapi]; exact he)
    refine ⟨?_, ?_, ?_⟩
    · rw [hic]
      exact List.mem_map.2 ⟨(t.indicator_code, t.indicator_name), hte.2, rfl⟩
    · obtain ⟨cs, hcs, hc⟩ :=
        mem_countryTasks COUNTRY_GROUPS t.country_code t.country_group hte.1

      have hco : o.country_code = t.country_code := by rw [← hcid, hresp1.1]
      exact ⟨t.country_group, cs, hcs, hco ▸ hc⟩
    · have h2 := hresp1.2
      rw [hyear] at h2
      exact h2

/-- Witness for C9 at a concrete trusted API oracle. -/
theorem claim_C9_witness :
    (∀ t ∈ enumTasks COUNTRY_GROUPS INDICATORS, ∀ e ∈ (sampleApi t).getD [],
      e.countryId = t.country_code ∧ yearWithinRange (pyToInt e.date)) ∧
    (∀ o ∈ fetch_data pyToInt pyToFloat sampleApi,
      o.indicator_code ∈ INDICATORS.map Prod.fst ∧
      (∃ g cs, (g, cs) ∈ COUNTRY_GROUPS ∧ o.country_code ∈ cs) ∧
      (START_YEAR ≤ o.year ∧ o.year ≤ END_YEAR)) :=
  ⟨by decide, claim_C9_invariants pyToInt pyToFloat sampleApi (by decide)⟩

theorem singletonDf_eval : detect_outliers_iqr singletonDf = Except.ok singletonDf := by
  norm_num [detect_outliers_iqr, singletonDf, gdpRow, pdUnique, flagIndicator, lowerBound,
    upperBound, indicatorValues, quantile, List.insertionSort, List.orderedInsert]

theorem pairDf_eval :
    detect_outliers_iqr [gdpRow 2000 10, inflRow] =
      Except.ok [gdpRow 2000 10, inflRow] := by
  norm_num [detect_outliers_iqr, gdpRow, inflRow, pdUnique]
  rw [if_neg (by decide : ¬("FP.CPI.TOTL.ZG" = "NY.GDP.MKTP.KD.ZG"))]
  norm_num [flagIndicator, lowerBound, upperBound, indicatorValues, quantile,
    List.insertionSort, List.orderedInsert]
  decide

/-- Witness for C5 at a concrete one-record frame. -/
theorem claim_C5_witness :
    detect_outliers_iqr singletonDf = Except.ok singletonDf ∧
    ((∀ i (hi : i < singletonDf.length) (ho : i < singletonDf.length),
       (singletonDf[i].is_outlier = true ↔
         (singletonDf[i].value < lowerBound singletonDf (singletonDf[i].indicator_code) ∨
          singletonDf[i].value > upperBound singletonDf (singletonDf[i].indicator_code)))) ∧
     (∀ i (hi : i < singletonDf.length) (ho : i < singletonDf.length) (v : Rat),
       indicatorValues singletonDf (singletonDf[i].indicator_code) = [v] →
       singletonDf[i].is_outlier = false)) :=
  ⟨singletonDf_eval, claim_C5_strict_bounds singletonDf singletonDf singletonDf_eval⟩

/-- Witness for C6 at a concrete frame. -/
theorem claim_C6_witness :
    detect_outliers_iqr singletonDf = Except.ok singletonDf ∧
    detect_outliers_iqr singletonDf = Except.ok singletonDf :=
  ⟨singletonDf_eval, claim_C6_idempotent singletonDf singletonDf singletonDf_eval⟩

/-- Witness for C7: adding a second indicator's record leaves the first
indicator's flags unchanged. -/
theorem claim_C7_witness :
    detect_outliers_iqr singletonDf = Except.ok singletonDf ∧
    detect_outliers_iqr [gdpRow 2000 10, inflRow] =
      Except.ok [gdpRow 2000 10, inflRow] ∧
    singletonDf.filter (fun r => r.indicator_code = "NY.GDP.MKTP.KD.ZG") =
      ([gdpRow 2000 10, inflRow] : List Observation).filter
        (fun r => r.indicator_code = "NY.GDP.MKTP.KD.ZG") ∧
    singletonDf.filter (fun r => r.indicator_code = "NY.GDP.MKTP.KD.ZG") =
      ([gdpRow 2000 10, inflRow] : List Observation).filter
        (fun r => r.indicator_code = "NY.GDP.MKTP.KD.ZG") := by
  have h3 : singletonDf.filter (fun r => r.indicator_code = "NY.GDP.MKTP.KD.ZG") =
      ([gdpRow 2000 10, inflRow] : List Observation).filter
        (fun r => r.indicator_code = "NY.GDP.MKTP.KD.ZG") := by decide
  exact ⟨singletonDf_eval, pairDf_eval, h3,
    claim_C7_partition_independence singletonDf [gdpRow 2000 10, inflRow] singletonDf
      [gdpRow 2000 10, inflRow] "NY.GDP.MKTP.KD.ZG" singletonDf_eval pairDf_eval h3⟩

/-- Witness for C8 at a concrete frame. -/
theorem claim_C8_witness :
    detect_outliers_iqr singletonDf = Except.ok singletonDf ∧
    (singletonDf.length = singletonDf.length ∧
      singletonDf.map (fun r => { r with is_outlier := false }) =
        singletonDf.map (fun r => { r with is_outlier := false })) :=
  ⟨singletonDf_eval, claim_C8_frame singletonDf singletonDf singletonDf_eval⟩

